import Mathlib

/-!
Verification development for the repair-loop core of the agentic-typer
repository.  Each definition is a shallow embedding of the corresponding
TypeScript function; external collaborators (the TypeScript compiler,
ESLint engine, diff library, oracle runtime and file system) are modelled
as explicit parameters.  File systems are modelled as association lists
from absolute path to content; JavaScript `Map`/`Set` values are modelled
as insertion-ordered association lists / lists without duplicates.
-/

set_option autoImplicit false

/-- Association-list lookup, modelling JavaScript `Map.get` /
`Map.prototype.has` over string keys (keys are unique by construction). -/
def lookupKey {α : Type} : List (String × α) → String → Option α
  | [], _ => none
  | (k, v) :: rest, key => if key = k then some v else lookupKey rest key

/-- JavaScript `Map.set` semantics: overwrite the entry if the key is
present, otherwise append the new entry at the end (insertion order). -/
def setKey {α : Type} : List (String × α) → String → α → List (String × α)
  | [], key, v => [(key, v)]
  | (k, w) :: rest, key, v =>
    if key = k then (k, v) :: rest else (k, w) :: setKey rest key v

/- ===== src/src/agents/errors/fix-errors.ts ===== -/

def MAX_ITERATIONS_PER_100_ERRORS : Nat := 5

/-- `calculateMaxIterations` from fix-errors.ts: `Math.floor` on a
non-negative integer quotient is natural-number division. -/
def calculateMaxIterations (initialErrorCount : Nat) : Nat :=
  if initialErrorCount < 100 then MAX_ITERATIONS_PER_100_ERRORS
  else initialErrorCount * MAX_ITERATIONS_PER_100_ERRORS / 100

/-- C1 counterexample: the code computes `Math.floor(250 * 5 / 100) = 12`,
not `ceil(250 * 5 / 100) = 13` as the claim states. -/
theorem calculateMaxIterations_250_ne_ceil :
    calculateMaxIterations 250 = 12 ∧ ¬ calculateMaxIterations 250 = 13 := by
  constructor
  · rfl
  · decide

/-- C1 (amended): the iteration cap is 5 when the initial diagnostic count
is below 100 and `floor(count * 5 / 100)` otherwise — characterised as the
greatest `m` with `m * 100 ≤ count * 5`; 40 initial errors give cap 5 and
250 initial errors give cap 12. -/
theorem calculateMaxIterations_floor_formula (n : Nat) :
    (n < 100 → calculateMaxIterations n = 5) ∧
    (100 ≤ n → calculateMaxIterations n = n * 5 / 100 ∧
      calculateMaxIterations n * 100 ≤ n * 5 ∧
      n * 5 < (calculateMaxIterations n + 1) * 100) ∧
    calculateMaxIterations 40 = 5 ∧ calculateMaxIterations 250 = 12 := by
  refine ⟨fun h => ?_, fun h => ?_, rfl, rfl⟩
  · simp [calculateMaxIterations, h, MAX_ITERATIONS_PER_100_ERRORS]
  · have hne : ¬ n < 100 := by omega
    have hdef : calculateMaxIterations n = n * 5 / 100 := by
      simp [calculateMaxIterations, hne, MAX_ITERATIONS_PER_100_ERRORS]
    refine ⟨hdef, ?_, ?_⟩
    · rw [hdef]
      have := Nat.div_mul_le_self (n * 5) 100
      omega
    · rw [hdef]
      have h1 : 100 * (n * 5 / 100) + n * 5 % 100 = n * 5 :=
        Nat.div_add_mod (n * 5) 100
      have h2 : n * 5 % 100 < 100 := Nat.mod_lt _ (by omega)
      omega

/-- C1 witness: the amended formula evaluated at the concrete count 250. -/
theorem calculateMaxIterations_floor_formula_witness :
    (100 ≤ 250) ∧ calculateMaxIterations 250 = 250 * 5 / 100 :=
  ⟨by decide, ((calculateMaxIterations_floor_formula 250).2.1 (by decide)).1⟩

/- ===== fix-errors.ts: handleClaudeError ===== -/

/-- The error classes raised by the claude-code wrapper
(claude-code.ts): `ClaudePromptLimitError` for the input-size-limit
condition, `ClaudeSessionLimitError` for session/weekly/usage quota
exhaustion, and any other thrown error. -/
inductive ClaudeErrorKind : Type
  | promptLimit
  | sessionLimit
  | otherError (msg : String)
deriving DecidableEq

/-- `FixErrorsAgent.handleClaudeError`: on a `ClaudePromptLimitError`
with a single-file scope (`this.filePath` is a string) it reads the file
and rewrites it with a `// @ts-nocheck` line prepended; every other error
is rethrown unchanged.  The file system is an association list; a read of
a missing file propagates as an infrastructure error, and a successful
fallback returns the updated file system. -/
def handleClaudeError (error : ClaudeErrorKind) (filePath : Option String)
    (fs : List (String × String)) :
    Except ClaudeErrorKind (List (String × String)) :=
  match error, filePath with
  | .promptLimit, some f =>
    match lookupKey fs f with
    | some fileContent =>
      .ok (setKey fs f ("// @ts-nocheck\n" ++ fileContent))
    | none => .error (.otherError ("ENOENT: no such file " ++ f))
  | e, _ => .error e

/-- C7: an input-size-limit failure on a single-file scope is not
propagated and not retried — the file is rewritten to `// @ts-nocheck`
prepended to its previous content; a session-limit error, any other
error, and an input-size-limit failure on the whole-project scope
(no file path) all propagate upward unchanged. -/
theorem handleClaudeError_spec :
    (∀ (fs : List (String × String)) (f c : String), lookupKey fs f = some c →
      handleClaudeError .promptLimit (some f) fs =
        .ok (setKey fs f ("// @ts-nocheck\n" ++ c))) ∧
    (∀ (fs : List (String × String)) (fp : Option String),
      handleClaudeError .sessionLimit fp fs = .error .sessionLimit) ∧
    (∀ (fs : List (String × String)) (m : String) (fp : Option String),
      handleClaudeError (.otherError m) fp fs = .error (.otherError m)) ∧
    (∀ fs : List (String × String),
      handleClaudeError .promptLimit none fs = .error .promptLimit) := by
  refine ⟨fun fs f c h => ?_, fun fs fp => ?_, fun fs m fp => ?_, fun fs => ?_⟩
  · simp [handleClaudeError, h]
  · cases fp <;> rfl
  · cases fp <;> rfl
  · rfl

/-- C7 witness: the fallback and the propagation cases evaluated on a
concrete one-file file system. -/
theorem handleClaudeError_spec_witness :
    handleClaudeError .promptLimit (some "/a.ts") [("/a.ts", "let x = 1;")] =
      .ok [("/a.ts", "// @ts-nocheck\nlet x = 1;")] ∧
    handleClaudeError .sessionLimit (some "/a.ts") [("/a.ts", "let x = 1;")] =
      .error .sessionLimit :=
  ⟨handleClaudeError_spec.1 [("/a.ts", "let x = 1;")] "/a.ts" "let x = 1;" rfl,
   handleClaudeError_spec.2.1 [("/a.ts", "let x = 1;")] (some "/a.ts")⟩

/- ===== src/src/utils/claude-code.ts: FileModificationHookState ===== -/

/-- `isFileModificationTool` from claude-code.ts. -/
def isFileModificationTool (toolName : String) : Bool :=
  toolName ∈ ["Edit", "MultiEdit"]

/-- `FileModificationHookState.extractFilePath`: the decoded `file_path`
field of the tool input, or a thrown error when it is missing.  Paths in
the model are already absolute, so the `isAbsolute`/`resolve`
normalisation of the source is the identity here. -/
def extractFilePath (toolFilePath : Option String) : Except String String :=
  match toolFilePath with
  | some p => .ok p
  | none => .error "Invalid tool input: missing file_path"

/-- `transpile` from typescript.ts: read the file and lower it with the
TypeScript compiler (comment-stripping `transpileModule`), modelled by the
abstract deterministic function `lower`; reading a missing file throws. -/
def transpile (lower : String → String) (fs : List (String × String))
    (fileName : String) : Except String String :=
  match lookupKey fs fileName with
  | some sourceCode => .ok (lower sourceCode)
  | none => .error ("ENOENT: no such file " ++ fileName)

/-- The state of `FileModificationHookState` relevant to one run: the
snapshot table (`original` map) and the violation counter. -/
structure GateState where
  original : List (String × String)
  behaviorModificationsDetected : Nat
deriving DecidableEq

/-- The hook result: either no output (`{}`) or a
`hookSpecificOutput.additionalContext` payload for the next oracle turn. -/
inductive HookOutput : Type
  | empty
  | context (additionalContext : String)
deriving DecidableEq

/-- `FileModificationHookState.handlePreToolUseEvent`: for a
file-modifying tool, store the canonical lowered form of the file the
first time the file is about to be touched; no-op when a snapshot already
exists. -/
def handlePreToolUseEvent (lower : String → String)
    (fs : List (String × String)) (st : GateState) (toolName : String)
    (toolFilePath : Option String) : Except String GateState :=
  if isFileModificationTool toolName = false then .ok st else
  match extractFilePath toolFilePath with
  | .error e => .error e
  | .ok filePath =>
    match lookupKey st.original filePath with
    | some _ => .ok st
    | none =>
      match transpile lower fs filePath with
      | .error e => .error e
      | .ok transpiled =>
        .ok { st with original := setKey st.original filePath transpiled }

/-- `FileModificationHookState.detectRuntimeChange`: compare the
recomputed lowering against the stored snapshot; a missing snapshot is a
thrown error, equality yields no diff, inequality yields a patch produced
by the external diff library `createPatch`. -/
def detectRuntimeChange (lower : String → String)
    (createPatch : String → String → String → String)
    (fs : List (String × String)) (st : GateState) (filePath : String) :
    Except String (Option String) :=
  match lookupKey st.original filePath with
  | none => .error ("Missing original code for " ++ filePath)
  | some originalCode =>
    match transpile lower fs filePath with
    | .error e => .error e
    | .ok currentCode =>
      if originalCode = currentCode then .ok none
      else .ok (some (createPatch filePath originalCode currentCode))

/-- The correction directive synthesised by `handlePostToolUseEvent`. -/
def correctionDirective (filePath diff : String) : String :=
  "CRITICAL: You modified the runtime behavior in \x27" ++ filePath ++
  "\x27.\n\nYou MUST NOT change any code logic.\n\n" ++
  "Here is the diff showing the runtime changes you made:\n\n<diff>\n" ++
  diff ++ "</diff>\n\nRevert ALL runtime changes immediately."

/-- `FileModificationHookState.handlePostToolUseEvent`: recompute and
compare the lowering; on a difference, increment the violation counter and
return the correction directive as additional context. -/
def handlePostToolUseEvent (lower : String → String)
    (createPatch : String → String → String → String)
    (fs : List (String × String)) (st : GateState) (toolName : String)
    (toolFilePath : Option String) : Except String (GateState × HookOutput) :=
  if isFileModificationTool toolName = false then .ok (st, .empty) else
  match extractFilePath toolFilePath with
  | .error e => .error e
  | .ok filePath =>
    match detectRuntimeChange lower createPatch fs st filePath with
    | .error e => .error e
    | .ok none => .ok (st, .empty)
    | .ok (some diff) =>
      .ok ({ st with behaviorModificationsDetected :=
               st.behaviorModificationsDetected + 1 },
           .context (correctionDirective filePath diff))

/-- The hook event names dispatched by `createHook`; events other than
PreToolUse/PostToolUse fall through to the default branch. -/
inductive HookEventName : Type
  | preToolUse
  | postToolUse
  | otherEvent
deriving DecidableEq

/-- The body of the `try` block in `createHook`: dispatch on the event
name; any handler error escapes this inner function. -/
def hookHandle (lower : String → String)
    (createPatch : String → String → String → String)
    (fs : List (String × String)) (st : GateState) (ev : HookEventName)
    (toolName : String) (toolFilePath : Option String) :
    Except String (GateState × HookOutput) :=
  match ev with
  | .preToolUse =>
    match handlePreToolUseEvent lower fs st toolName toolFilePath with
    | .ok st' => .ok (st', .empty)
    | .error e => .error e
  | .postToolUse =>
    handlePostToolUseEvent lower createPatch fs st toolName toolFilePath
  | .otherEvent => .ok (st, .empty)

/-- The full hook of `createHook`, including its `catch` clause: every
error thrown by the handlers is logged and turned into an empty result,
leaving the state as it was. -/
def hookRun (lower : String → String)
    (createPatch : String → String → String → String)
    (fs : List (String × String)) (st : GateState) (ev : HookEventName)
    (toolName : String) (toolFilePath : Option String) :
    GateState × HookOutput :=
  match hookHandle lower createPatch fs st ev toolName toolFilePath with
  | .ok r => r
  | .error _ => (st, .empty)

/-- Lookup after a `Map.set`: the new key maps to the new value, every
other key is unaffected. -/
theorem lookupKey_setKey {α : Type} (m : List (String × α)) (k : String)
    (v : α) (key : String) :
    lookupKey (setKey m k v) key = if key = k then some v else lookupKey m key := by
  induction m with
  | nil => simp [setKey, lookupKey]
  | cons kv rest ih =>
    obtain ⟨a, b⟩ := kv
    by_cases hka : k = a
    · subst hka
      simp only [setKey, if_pos rfl, lookupKey]
      by_cases hk : key = k <;> simp [hk]
    · simp only [setKey, if_neg hka, lookupKey]
      by_cases hk : key = a
      · subst hk
        have : ¬ key = k := fun h => hka h.symm
        simp [this]
      · simp [hk, ih]

/-- Concrete inputs for the gate counterexamples: the identity lowering,
a concrete patch function, and a one-file file system. -/
def idLower : String → String := fun s => s

def patchEx : String → String → String → String :=
  fun f a b => "Index: " ++ f ++ "\n-" ++ a ++ "\n+" ++ b

def gateFsEx : List (String × String) := [("/a.ts", "let x = 1;")]

def gateStEx : GateState := { original := [], behaviorModificationsDetected := 0 }

/-- C2 counterexample: a post-edit observation on a file with no stored
snapshot.  The inner handler does raise the missing-snapshot error, but
the hook's blanket `catch` swallows it: the hook returns an empty result
with the state untouched, so nothing propagates upward and the run does
not abort. -/
theorem missingSnapshot_error_swallowed_concrete :
    hookHandle idLower patchEx gateFsEx gateStEx .postToolUse "Edit" (some "/a.ts")
      = .error "Missing original code for /a.ts" ∧
    hookRun idLower patchEx gateFsEx gateStEx .postToolUse "Edit" (some "/a.ts")
      = (gateStEx, .empty) := by
  constructor <;> rfl

/-- C2 (amended): when a post-edit observation finds no stored snapshot
for the edited file, the handler throws a `Missing original code` error,
but the hook's catch-all handler logs it and returns an empty result; the
observation is skipped, the state is unchanged, and the error does not
propagate beyond the hook, so the run continues. -/
theorem missingSnapshot_error_caught_not_propagated
    (lower : String → String)
    (createPatch : String → String → String → String)
    (fs : List (String × String)) (st : GateState) (tn f : String)
    (htool : isFileModificationTool tn = true)
    (hmiss : lookupKey st.original f = none) :
    hookHandle lower createPatch fs st .postToolUse tn (some f)
      = .error ("Missing original code for " ++ f) ∧
    hookRun lower createPatch fs st .postToolUse tn (some f) = (st, .empty) := by
  have hh : hookHandle lower createPatch fs st .postToolUse tn (some f)
      = .error ("Missing original code for " ++ f) := by
    simp [hookHandle, handlePostToolUseEvent, htool, extractFilePath,
      detectRuntimeChange, hmiss]
  exact ⟨hh, by simp [hookRun, hh]⟩

/-- C2 witness: the amended statement evaluated at a concrete state with
an empty snapshot table. -/
theorem missingSnapshot_error_caught_witness :
    hookHandle idLower patchEx gateFsEx
        { original := [("/b.ts", "X")], behaviorModificationsDetected := 3 }
        .postToolUse "MultiEdit" (some "/a.ts")
      = .error ("Missing original code for " ++ "/a.ts") ∧
    hookRun idLower patchEx gateFsEx
        { original := [("/b.ts", "X")], behaviorModificationsDetected := 3 }
        .postToolUse "MultiEdit" (some "/a.ts")
      = ({ original := [("/b.ts", "X")], behaviorModificationsDetected := 3 }, .empty) :=
  missingSnapshot_error_caught_not_propagated idLower patchEx gateFsEx
    { original := [("/b.ts", "X")], behaviorModificationsDetected := 3 }
    "MultiEdit" "/a.ts" (by decide) (by decide)

/-- The two possible outcomes of one post-edit observation on a file with
a stored snapshot, as computed by the hook. -/
theorem hookRun_post_snapshot (lower : String → String)
    (createPatch : String → String → String → String)
    (fs : List (String × String)) (st : GateState) (tn f snap src : String)
    (htool : isFileModificationTool tn = true)
    (hsnap : lookupKey st.original f = some snap)
    (hfile : lookupKey fs f = some src) :
    hookRun lower createPatch fs st .postToolUse tn (some f) =
      if snap = lower src then (st, .empty)
      else ({ st with behaviorModificationsDetected :=
                st.behaviorModificationsDetected + 1 },
            .context (correctionDirective f (createPatch f snap (lower src)))) := by
  by_cases heq : snap = lower src
  · simp [hookRun, hookHandle, handlePostToolUseEvent, htool, extractFilePath,
      detectRuntimeChange, hsnap, transpile, hfile, heq]
  · simp [hookRun, hookHandle, handlePostToolUseEvent, htool, extractFilePath,
      detectRuntimeChange, hsnap, transpile, hfile, heq]

/-- C4 (amended): on a post-edit observation for a file with a stored
snapshot, equality of the recomputed lowering with the snapshot yields no
violation and leaves the counter unchanged; inequality increments the
counter by exactly one and returns the correction directive embedding the
diff as additional context; and a repeated post-edit observation with no
intervening edit reproduces the first outcome exactly — the same output
and the same counter increment — so it reports no violation precisely
when the first observation reported none. -/
theorem postEdit_observation_spec (lower : String → String)
    (createPatch : String → String → String → String)
    (fs : List (String × String)) (st : GateState) (tn f snap src : String)
    (htool : isFileModificationTool tn = true)
    (hsnap : lookupKey st.original f = some snap)
    (hfile : lookupKey fs f = some src) :
    (lower src = snap →
      hookRun lower createPatch fs st .postToolUse tn (some f) = (st, .empty)) ∧
    (¬ lower src = snap →
      hookRun lower createPatch fs st .postToolUse tn (some f) =
        ({ st with behaviorModificationsDetected :=
             st.behaviorModificationsDetected + 1 },
         .context (correctionDirective f (createPatch f snap (lower src))))) ∧
    (∀ (st₁ : GateState) (o₁ : HookOutput),
      hookRun lower createPatch fs st .postToolUse tn (some f) = (st₁, o₁) →
      st₁.original = st.original ∧
      hookRun lower createPatch fs st₁ .postToolUse tn (some f) =
        ({ st₁ with behaviorModificationsDetected :=
             st₁.behaviorModificationsDetected +
               (st₁.behaviorModificationsDetected -
                 st.behaviorModificationsDetected) },
         o₁)) := by
  have hmain := hookRun_post_snapshot lower createPatch fs st tn f snap src
    htool hsnap hfile
  refine ⟨fun heq => ?_, fun hne => ?_, fun st₁ o₁ h1 => ?_⟩
  · rw [hmain, if_pos heq.symm]
  · rw [hmain, if_neg (fun h => hne h.symm)]
  · by_cases heq : snap = lower src
    · rw [hmain, if_pos heq] at h1
      obtain ⟨h1a, h1b⟩ := Prod.mk.injEq .. ▸ h1
      subst h1a
      subst h1b
      refine ⟨rfl, ?_⟩
      rw [hmain, if_pos heq]
      simp
    · rw [hmain, if_neg heq] at h1
      obtain ⟨h1a, h1b⟩ := Prod.mk.injEq .. ▸ h1
      have horig : st₁.original = st.original := by rw [← h1a]
      have hcnt : st₁.behaviorModificationsDetected =
          st.behaviorModificationsDetected + 1 := by rw [← h1a]
      have hsnap1 : lookupKey st₁.original f = some snap := by
        rw [horig]; exact hsnap
      have hmain1 := hookRun_post_snapshot lower createPatch fs st₁ tn f snap src
        htool hsnap1 hfile
      refine ⟨horig, ?_⟩
      rw [hmain1, if_neg heq, ← h1b]
      have : st₁.behaviorModificationsDetected + 1 =
          st₁.behaviorModificationsDetected +
            (st₁.behaviorModificationsDetected -
              st.behaviorModificationsDetected) := by omega
      rw [← this]

/-- C4 witness: the amended statement evaluated on a concrete state whose
snapshot differs from the current lowering. -/
theorem postEdit_observation_spec_witness :
    hookRun idLower patchEx [("/a.ts", "SRC")]
        { original := [("/a.ts", "SNAP")], behaviorModificationsDetected := 0 }
        .postToolUse "Edit" (some "/a.ts") =
      ({ original := [("/a.ts", "SNAP")], behaviorModificationsDetected := 1 },
       .context (correctionDirective "/a.ts" (patchEx "/a.ts" "SNAP" "SRC"))) :=
  (postEdit_observation_spec idLower patchEx [("/a.ts", "SRC")]
    { original := [("/a.ts", "SNAP")], behaviorModificationsDetected := 0 }
    "Edit" "/a.ts" "SNAP" "SRC" (by decide) (by decide) (by decide)).2.1
    (by decide)

/-- C4 counterexample: with a stored snapshot that differs from the
current lowering, a second post-edit observation with no intervening edit
reports the violation again — the output is again a correction directive
and the counter reaches 2 — refuting "repeated post-edit observations
with no intervening edit never report a violation". -/
theorem postEdit_repeat_reports_again :
    (hookRun idLower patchEx [("/a.ts", "SRC")]
        { original := [("/a.ts", "SNAP")], behaviorModificationsDetected := 0 }
        .postToolUse "Edit" (some "/a.ts")).1.behaviorModificationsDetected = 1 ∧
    (hookRun idLower patchEx [("/a.ts", "SRC")]
        (hookRun idLower patchEx [("/a.ts", "SRC")]
          { original := [("/a.ts", "SNAP")], behaviorModificationsDetected := 0 }
          .postToolUse "Edit" (some "/a.ts")).1
        .postToolUse "Edit" (some "/a.ts")).2 ≠ HookOutput.empty ∧
    (hookRun idLower patchEx [("/a.ts", "SRC")]
        (hookRun idLower patchEx [("/a.ts", "SRC")]
          { original := [("/a.ts", "SNAP")], behaviorModificationsDetected := 0 }
          .postToolUse "Edit" (some "/a.ts")).1
        .postToolUse "Edit" (some "/a.ts")).1.behaviorModificationsDetected = 2 := by
  refine ⟨rfl, ?_, rfl⟩
  decide

/-- One invocation of the hook as seen by the oracle runtime: the file
system at that moment (edits may have happened since the previous call),
the event name, the tool name and the decoded tool input. -/
structure HookCall where
  fs : List (String × String)
  ev : HookEventName
  toolName : String
  toolFilePath : Option String

/-- A run of the gate: fold the hook over a list of calls, threading the
state. -/
def runHooks (lower : String → String)
    (createPatch : String → String → String → String) :
    List HookCall → GateState → GateState
  | [], st => st
  | c :: cs, st =>
    runHooks lower createPatch cs
      (hookRun lower createPatch c.fs st c.ev c.toolName c.toolFilePath).1

/-- A successful post-edit handler never changes the snapshot table. -/
theorem handlePost_original (lower : String → String)
    (createPatch : String → String → String → String)
    (fs : List (String × String)) (st st' : GateState) (tn : String)
    (tfp : Option String) (o : HookOutput)
    (h : handlePostToolUseEvent lower createPatch fs st tn tfp = .ok (st', o)) :
    st'.original = st.original := by
  unfold handlePostToolUseEvent at h
  split at h
  · cases h; rfl
  · split at h
    · cases h
    · split at h
      · cases h
      · cases h; rfl
      · cases h; rfl

/-- A successful pre-edit handler either leaves the state unchanged or
adds a snapshot for a file that had none. -/
theorem handlePre_ok (lower : String → String)
    (fs : List (String × String)) (st st' : GateState) (tn : String)
    (tfp : Option String)
    (h : handlePreToolUseEvent lower fs st tn tfp = .ok st') :
    st' = st ∨ ∃ filePath transpiled,
      lookupKey st.original filePath = none ∧
      st' = { st with original := setKey st.original filePath transpiled } := by
  unfold handlePreToolUseEvent at h
  split at h
  · cases h; exact Or.inl rfl
  · split at h
    · cases h
    · split at h
      · cases h; exact Or.inl rfl
      · split at h
        · cases h
        · cases h
          exact Or.inr ⟨_, _, by assumption, rfl⟩

/-- One hook invocation of any kind never removes or overwrites an
existing snapshot entry. -/
theorem hookRun_preserves_snapshot (lower : String → String)
    (createPatch : String → String → String → String)
    (fs : List (String × String)) (st : GateState) (ev : HookEventName)
    (tn : String) (tfp : Option String) (f v : String)
    (h : lookupKey st.original f = some v) :
    lookupKey ((hookRun lower createPatch fs st ev tn tfp).1).original f
      = some v := by
  unfold hookRun hookHandle
  cases ev with
  | otherEvent => exact h
  | postToolUse =>
    cases hpost : handlePostToolUseEvent lower createPatch fs st tn tfp with
    | error e => exact h
    | ok r =>
      obtain ⟨st', o⟩ := r
      show lookupKey st'.original f = some v
      rw [handlePost_original lower createPatch fs st st' tn tfp o hpost]
      exact h
  | preToolUse =>
    cases hpre : handlePreToolUseEvent lower fs st tn tfp with
    | error e => exact h
    | ok st' =>
      show lookupKey st'.original f = some v
      rcases handlePre_ok lower fs st st' tn tfp hpre with rfl | ⟨fp, t, hn, rfl⟩
      · exact h
      · have hne : ¬ f = fp := by
          intro hf
          rw [hf] at h
          rw [h] at hn
          cases hn
        show lookupKey (setKey st.original fp t) f = some v
        rw [lookupKey_setKey, if_neg hne]
        exact h

/-- C5: the first pre-edit observation for a file stores the lowering of
the file content as it is at that moment, and no later hook invocation of
any kind — in particular no later pre-edit observation — changes a stored
snapshot, so the snapshot always equals the lowering captured at the
first observation. -/
theorem preEdit_snapshot_write_once (lower : String → String)
    (createPatch : String → String → String → String) :
    (∀ (fs : List (String × String)) (st : GateState) (tn f src : String),
      isFileModificationTool tn = true →
      lookupKey st.original f = none →
      lookupKey fs f = some src →
      lookupKey ((hookRun lower createPatch fs st .preToolUse tn
          (some f)).1).original f = some (lower src)) ∧
    (∀ (calls : List HookCall) (st : GateState) (f v : String),
      lookupKey st.original f = some v →
      lookupKey (runHooks lower createPatch calls st).original f = some v) := by
  constructor
  · intro fs st tn f src htool hmiss hfile
    simp [hookRun, hookHandle, handlePreToolUseEvent, htool, extractFilePath,
      hmiss, transpile, hfile, lookupKey_setKey]
  · intro calls
    induction calls with
    | nil => intro st f v h; exact h
    | cons c cs ih =>
      intro st f v h
      exact ih _ f v
        (hookRun_preserves_snapshot lower createPatch c.fs st c.ev c.toolName
          c.toolFilePath f v h)

/-- C5 witness: a first pre-edit observation stores the lowering of the
current content, and a stored snapshot survives a later post-edit call on
an edited file system. -/
theorem preEdit_snapshot_write_once_witness :
    lookupKey ((hookRun idLower patchEx [("/b.ts", "SRC")]
        { original := [], behaviorModificationsDetected := 0 }
        .preToolUse "Edit" (some "/b.ts")).1).original "/b.ts"
      = some (idLower "SRC") ∧
    lookupKey (runHooks idLower patchEx
        [{ fs := [("/b.ts", "NEW")], ev := .postToolUse, toolName := "Edit",
           toolFilePath := some "/b.ts" }]
        { original := [("/b.ts", "SNAP")], behaviorModificationsDetected := 0 }).original
        "/b.ts"
      = some "SNAP" :=
  ⟨(preEdit_snapshot_write_once idLower patchEx).1 [("/b.ts", "SRC")]
      { original := [], behaviorModificationsDetected := 0 } "Edit" "/b.ts" "SRC"
      (by decide) (by decide) (by decide),
   (preEdit_snapshot_write_once idLower patchEx).2
      [{ fs := [("/b.ts", "NEW")], ev := .postToolUse, toolName := "Edit",
         toolFilePath := some "/b.ts" }]
      { original := [("/b.ts", "SNAP")], behaviorModificationsDetected := 0 }
      "/b.ts" "SNAP" (by decide)⟩

/- ===== file-dependencies.ts / file-queue.ts ===== -/

/-- `DependencyGraph` from file-dependencies.ts: the immutable map from
file path to its direct local imports, built once per run by the external
TypeScript module-resolution machinery (modelled as given data). -/
structure DependencyGraph where
  graph : List (String × List String)
deriving DecidableEq

/-- `DependencyGraph.get`: the dependency list of an indexed file;
querying a file that was never indexed throws. -/
def DependencyGraph.get (g : DependencyGraph) (filePath : String) :
    Except String (List String) :=
  match lookupKey g.graph filePath with
  | some dependencies => .ok dependencies
  | none => .error ("No dependencies found for file: " ++ filePath)

/-- `FileQueue` from file-queue.ts: the three-state schedule.  `Done` is
implicit removal from both sets.  The JavaScript `Set`s are modelled as
insertion-ordered duplicate-free lists. -/
structure FileQueue where
  dependencies : DependencyGraph
  unprocessedFiles : List String
  processingFiles : List String
deriving DecidableEq

/-- The `FileQueue` constructor: `new Set(files)` keeps the first
occurrence of each file in order; `processingFiles` starts empty. -/
def mkFileQueue (dependencies : DependencyGraph) (files : List String) :
    FileQueue :=
  { dependencies := dependencies,
    unprocessedFiles :=
      files.foldl (fun acc f => if f ∈ acc then acc else acc ++ [f]) [],
    processingFiles := [] }

/-- `FileQueue.countUnprocessedDependencies`: how many of a file's
dependencies are still unprocessed or in progress. -/
def countUnprocessedDependencies (q : FileQueue) (filePath : String) :
    Except String Nat :=
  match q.dependencies.get filePath with
  | .error e => .error e
  | .ok fileDeps =>
    .ok ((fileDeps.filter (fun dep =>
      dep ∈ q.unprocessedFiles ∨ dep ∈ q.processingFiles)).length)

/-- The same count as a total function, defined for indexed files. -/
def depCount (q : FileQueue) (filePath : String) : Nat :=
  (((lookupKey q.dependencies.graph filePath).getD []).filter (fun dep =>
    dep ∈ q.unprocessedFiles ∨ dep ∈ q.processingFiles)).length

theorem countUnprocessedDependencies_ok (q : FileQueue) (filePath : String)
    (h : (lookupKey q.dependencies.graph filePath).isSome) :
    countUnprocessedDependencies q filePath = .ok (depCount q filePath) := by
  unfold countUnprocessedDependencies DependencyGraph.get depCount
  cases hl : lookupKey q.dependencies.graph filePath with
  | some deps => simp
  | none => rw [hl] at h; cases h

/-- The loop of `FileQueue.selectFileWithLeastDependencies`: iterate over
the unprocessed files keeping the first file whose dependency count is a
strict improvement (`minDeps` starts at positive infinity, modelled as the
empty accumulator). -/
def selectAux (q : FileQueue) :
    List String → Option (String × Nat) → Except String (Option String)
  | [], best => .ok (best.map Prod.fst)
  | filePath :: rest, best =>
    match countUnprocessedDependencies q filePath with
    | .error e => .error e
    | .ok deps =>
      match best with
      | none => selectAux q rest (some (filePath, deps))
      | some (bestFile, minDeps) =>
        if deps < minDeps then selectAux q rest (some (filePath, deps))
        else selectAux q rest (some (bestFile, minDeps))

/-- `FileQueue.selectFileWithLeastDependencies`. -/
def selectFileWithLeastDependencies (q : FileQueue) :
    Except String (Option String) :=
  selectAux q q.unprocessedFiles none

/-- `FileQueue.shift`: select, fail when nothing is unprocessed, and move
the selected file from `unprocessedFiles` to `processingFiles`. -/
def FileQueue.shift (q : FileQueue) : Except String (String × FileQueue) :=
  match selectFileWithLeastDependencies q with
  | .error e => .error e
  | .ok none => .error "No more files to process"
  | .ok (some file) =>
    .ok (file,
      { q with
        unprocessedFiles := q.unprocessedFiles.erase file,
        processingFiles :=
          if file ∈ q.processingFiles then q.processingFiles
          else q.processingFiles ++ [file] })

/-- `FileQueue.markAsProcessed`. -/
def FileQueue.markAsProcessed (q : FileQueue) (filePath : String) : FileQueue :=
  { q with processingFiles := q.processingFiles.erase filePath }

/-- `FileQueue.hasUnprocessedFiles`. -/
def FileQueue.hasUnprocessedFiles (q : FileQueue) : Bool :=
  q.unprocessedFiles.length > 0

/-- Invariant of the selection loop: starting from an accumulator holding
`bestFile` with its true dependency count, the loop returns the first
file of `bestFile :: rest` attaining the minimum dependency count. -/
theorem selectAux_first_min (q : FileQueue) (rest : List String) :
    ∀ (bf : String) (bd : Nat),
      (∀ f ∈ rest, (lookupKey q.dependencies.graph f).isSome) →
      bd = depCount q bf →
      ∃ r, selectAux q rest (some (bf, bd)) = .ok (some r) ∧
        (∀ g ∈ bf :: rest, depCount q r ≤ depCount q g) ∧
        ∃ i : Nat, (bf :: rest)[i]? = some r ∧
          ∀ j, j < i → ∀ g, (bf :: rest)[j]? = some g →
            depCount q r < depCount q g := by
  induction rest with
  | nil =>
    intro bf bd hall hbd
    refine ⟨bf, rfl, ?_, 0, rfl, ?_⟩
    · intro g hg
      simp only [List.mem_singleton] at hg
      subst hg
      exact le_refl _
    · intro j hj
      exact absurd hj (Nat.not_lt_zero j)
  | cons f rest ih =>
    intro bf bd hall hbd
    have hf : (lookupKey q.dependencies.graph f).isSome :=
      hall f (List.mem_cons_self f rest)
    have hcnt := countUnprocessedDependencies_ok q f hf
    have hall' : ∀ g ∈ rest, (lookupKey q.dependencies.graph g).isSome :=
      fun g hg => hall g (List.mem_cons_of_mem f hg)
    by_cases hlt : depCount q f < bd
    · obtain ⟨r, hsel, hmin, i, hidx, hpre⟩ := ih f (depCount q f) hall' rfl
      refine ⟨r, ?_, ?_, i + 1, ?_, ?_⟩
      · show selectAux q (f :: rest) (some (bf, bd)) = .ok (some r)
        simp only [selectAux, hcnt]
        rw [if_pos hlt]
        exact hsel
      · intro g hg
        rcases List.mem_cons.mp hg with hg | hg
        · subst hg
          have h1 : depCount q r ≤ depCount q f :=
            hmin f (List.mem_cons_self f rest)
          omega
        · exact hmin g hg
      · simpa using hidx
      · intro j hj g hjg
        cases j with
        | zero =>
          simp only [List.getElem?_cons_zero, Option.some.injEq] at hjg
          subst hjg
          have h1 : depCount q r ≤ depCount q f :=
            hmin f (List.mem_cons_self f rest)
          omega
        | succ j' =>
          have hj' : j' < i := by omega
          exact hpre j' hj' g (by simpa using hjg)
    · obtain ⟨r, hsel, hmin, i, hidx, hpre⟩ := ih bf bd hall' hbd
      have hbfle : depCount q r ≤ depCount q bf :=
        hmin bf (List.mem_cons_self bf rest)
      have hrle : depCount q r ≤ depCount q f := by omega
      have hsel' : selectAux q (f :: rest) (some (bf, bd)) = .ok (some r) := by
        simp only [selectAux, hcnt]
        rw [if_neg hlt]
        exact hsel
      refine ⟨r, hsel', ?_, ?_⟩
      · intro g hg
        rcases List.mem_cons.mp hg with hg | hg
        · subst hg; exact hbfle
        · rcases List.mem_cons.mp hg with hg | hg
          · subst hg; exact hrle
          · exact hmin g (List.mem_cons_of_mem bf hg)
      · cases i with
        | zero =>
          simp only [List.getElem?_cons_zero, Option.some.injEq] at hidx
          refine ⟨0, by simp [hidx], ?_⟩
          intro j hj
          exact absurd hj (Nat.not_lt_zero j)
        | succ i' =>
          simp only [List.getElem?_cons_succ] at hidx
          refine ⟨i' + 2, by simpa using hidx, ?_⟩
          intro j hj g hjg
          cases j with
          | zero =>
            simp only [List.getElem?_cons_zero, Option.some.injEq] at hjg
            subst hjg
            have := hpre 0 (by omega) bf (by simp)
            exact this
          | succ j' =>
            cases j' with
            | zero =>
              simp only [List.getElem?_cons_succ, List.getElem?_cons_zero,
                Option.some.injEq] at hjg
              subst hjg
              have := hpre 0 (by omega) bf (by simp)
              omega
            | succ j'' =>
              have hj'' : j'' + 1 < i' + 1 := by omega
              refine hpre (j'' + 1) hj'' g ?_
              simpa using hjg

/-- C6: whenever every queued file is indexed in the dependency graph,
`shift` fails exactly when the unprocessed set is empty, and otherwise
returns an unprocessed file whose count of dependencies still in
Unprocessed ∪ InProgress is minimal — the first such file in iteration
order: every file listed before it has a strictly larger count. -/
theorem fileQueue_shift_spec (q : FileQueue)
    (h : ∀ f ∈ q.unprocessedFiles, (lookupKey q.dependencies.graph f).isSome) :
    (q.unprocessedFiles = [] → q.shift = .error "No more files to process") ∧
    (q.unprocessedFiles ≠ [] → ∃ f q', q.shift = .ok (f, q') ∧
      f ∈ q.unprocessedFiles ∧
      (∀ g ∈ q.unprocessedFiles, depCount q f ≤ depCount q g) ∧
      ∃ i : Nat, q.unprocessedFiles[i]? = some f ∧
        ∀ j, j < i → ∀ g, q.unprocessedFiles[j]? = some g →
          depCount q f < depCount q g) := by
  constructor
  · intro he
    simp [FileQueue.shift, selectFileWithLeastDependencies, he, selectAux]
  · intro hne
    obtain ⟨f₀, rest, he⟩ := List.exists_cons_of_ne_nil hne
    have hf₀ : (lookupKey q.dependencies.graph f₀).isSome :=
      h f₀ (by rw [he]; exact List.mem_cons_self f₀ rest)
    have hcnt := countUnprocessedDependencies_ok q f₀ hf₀
    have hall' : ∀ g ∈ rest, (lookupKey q.dependencies.graph g).isSome :=
      fun g hg => h g (by rw [he]; exact List.mem_cons_of_mem f₀ hg)
    obtain ⟨r, hsel, hmin, i, hidx, hpre⟩ :=
      selectAux_first_min q rest f₀ (depCount q f₀) hall' rfl
    have hsel0 : selectFileWithLeastDependencies q = .ok (some r) := by
      unfold selectFileWithLeastDependencies
      rw [he]
      simp only [selectAux, hcnt]
      exact hsel
    refine ⟨r,
      { q with
        unprocessedFiles := q.unprocessedFiles.erase r,
        processingFiles :=
          if r ∈ q.processingFiles then q.processingFiles
          else q.processingFiles ++ [r] }, ?_, ?_, ?_, i, ?_, ?_⟩
    · unfold FileQueue.shift
      rw [hsel0]
    · rw [he]
      exact List.mem_iff_getElem?.mpr ⟨i, hidx⟩
    · intro g hg
      rw [he] at hg
      exact hmin g hg
    · rw [he]
      exact hidx
    · intro j hj g hjg
      rw [he] at hjg
      exact hpre j hj g hjg

/-- A concrete queue (files with errors B and C; graph also indexes A). -/
def queueC6 : FileQueue :=
  { dependencies :=
      ⟨[("/A.ts", []), ("/B.ts", ["/A.ts"]), ("/C.ts", ["/B.ts"])]⟩,
    unprocessedFiles := ["/B.ts", "/C.ts"],
    processingFiles := [] }

/-- C6 witness: the shift specification evaluated on the concrete queue. -/
theorem fileQueue_shift_spec_witness :
    (queueC6.unprocessedFiles = [] →
      queueC6.shift = .error "No more files to process") ∧
    (queueC6.unprocessedFiles ≠ [] → ∃ f q', queueC6.shift = .ok (f, q') ∧
      f ∈ queueC6.unprocessedFiles ∧
      (∀ g ∈ queueC6.unprocessedFiles, depCount queueC6 f ≤ depCount queueC6 g) ∧
      ∃ i : Nat, queueC6.unprocessedFiles[i]? = some f ∧
        ∀ j, j < i → ∀ g, queueC6.unprocessedFiles[j]? = some g →
          depCount queueC6 f < depCount queueC6 g) :=
  fileQueue_shift_spec queueC6 (by decide)

/- ===== project-errors.ts (diagnostic aggregator data model) ===== -/

inductive ErrorSource : Type
  | typescript
  | eslint
deriving DecidableEq

/-- A diagnostic code: TypeScript codes are numbers, ESLint rule ids are
strings; `none` models a null code. -/
inductive ErrCode : Type
  | num (code : Nat)
  | str (code : String)
deriving DecidableEq

/-- `ProjectError` from project-errors.ts. -/
structure ProjectError where
  source : ErrorSource
  filePath : String
  line : Nat
  column : Nat
  message : String
  code : Option ErrCode
deriving DecidableEq

/-- The TypeScript `DiagnosticCategory` enumeration. -/
inductive DiagnosticCategory : Type
  | warning
  | error
  | suggestion
  | message
deriving DecidableEq

/-- The part of a TypeScript `SourceFile` the aggregator uses: the file
name and `getLineAndCharacterOfPosition` (0-based line/character). -/
structure SourceFileModel where
  fileName : String
  lineColOf : Nat → Nat × Nat

/-- A raw TypeScript `Diagnostic` as produced by the external compiler:
`file` and `start` may be absent (e.g. project-configuration
diagnostics); `messageText` is modelled already flattened. -/
structure TsDiagnostic where
  file : Option SourceFileModel
  start : Option Nat
  category : DiagnosticCategory
  reportsUnnecessary : Bool
  code : Nat
  messageText : String

/-- `filterErrors` from typescript.ts: keep only error-category
diagnostics not flagged `reportsUnnecessary`. -/
def filterErrors (diagnostics : List TsDiagnostic) : List TsDiagnostic :=
  diagnostics.filter (fun d =>
    d.category == DiagnosticCategory.error && !d.reportsUnnecessary)

/-- `getTsErrors` from typescript.ts: the external compiler produces the
raw diagnostics (program construction and `getPreEmitDiagnostics` are the
external checker, modelled as the given raw list); the repository code
then applies `filterErrors`. -/
def getTsErrors (rawDiagnostics : List TsDiagnostic) : List TsDiagnostic :=
  filterErrors rawDiagnostics

/-- `convertTsDiagnostic` from project-errors.ts: throws when the
diagnostic has no source file or no start position; otherwise converts
0-based positions to 1-based. -/
def convertTsDiagnostic (diagnostic : TsDiagnostic) :
    Except String ProjectError :=
  match diagnostic.file, diagnostic.start with
  | some file, some start =>
    let lc := file.lineColOf start
    .ok { code := some (.num diagnostic.code), column := lc.2 + 1,
          filePath := file.fileName, line := lc.1 + 1,
          message := diagnostic.messageText, source := .typescript }
  | _, _ => .error "Diagnostic must have file and start properties"

/-- `tsErrors.map(convertTsDiagnostic)` in JavaScript: the first throwing
element aborts the whole map. -/
def convertAll : List TsDiagnostic → Except String (List ProjectError)
  | [] => .ok []
  | d :: ds =>
    match convertTsDiagnostic d with
    | .error e => .error e
    | .ok e =>
      match convertAll ds with
      | .error e2 => .error e2
      | .ok es => .ok (e :: es)

/-- A raw ESLint `LintMessage` as produced by the external linter
(severity 1 = warning, 2 = error). -/
structure LintMessage where
  column : Nat
  line : Nat
  message : String
  ruleId : Option String
  severity : Nat
deriving DecidableEq

/-- A raw ESLint `LintResult`: one linted file and its messages. -/
structure LintResult where
  filePath : String
  messages : List LintMessage
deriving DecidableEq

/-- `ESLintError` from eslint.ts. -/
structure ESLintError where
  filePath : String
  line : Nat
  column : Nat
  message : String
  ruleId : Option String
  severity : Nat
deriving DecidableEq

/-- The record pushed for each message in `getESLintErrorsForFile`. -/
def toESLintError (result : LintResult) (message : LintMessage) :
    ESLintError :=
  { column := message.column, filePath := result.filePath,
    line := message.line, message := message.message,
    ruleId := message.ruleId, severity := message.severity }

/-- `getESLintErrorsForFile` from eslint.ts: every message of every lint
result is collected — there is no severity or redundancy filter on this
path. -/
def getESLintErrorsForFile (results : List LintResult) : List ESLintError :=
  results.flatMap (fun result => result.messages.map (toESLintError result))

/-- `convertESLintError` from project-errors.ts. -/
def convertESLintError (error : ESLintError) : ProjectError :=
  { code := error.ruleId.map ErrCode.str, column := error.column,
    filePath := error.filePath, line := error.line,
    message := error.message, source := .eslint }

/-- The `Project` value threaded through the run. -/
structure Project where
  path : String
  phase : Nat
  language : String
  tsconfigPath : String
deriving DecidableEq

/-- `getErrors` from project-errors.ts: always convert the (filtered)
type-checker diagnostics; in phase 1 or for JavaScript projects stop
there, otherwise append the converted ESLint findings.  The raw
diagnostic lists stand for what the external checkers return for the
requested scope. -/
def getErrors (project : Project) (rawTs : List TsDiagnostic)
    (rawLint : List LintResult) : Except String (List ProjectError) :=
  match convertAll (getTsErrors rawTs) with
  | .error e => .error e
  | .ok projectErrors =>
    if project.phase = 1 ∨ project.language = "javascript" then
      .ok projectErrors
    else
      .ok (projectErrors ++
        (getESLintErrorsForFile rawLint).map convertESLintError)

/-- `groupErrorsByFile` from project-errors.ts: a plain object keyed by
file path, keys in insertion order. -/
def groupErrorsByFile (errors : List ProjectError) :
    List (String × List ProjectError) :=
  errors.foldl (fun result error =>
    match lookupKey result error.filePath with
    | some _ => result.map (fun kv =>
        if kv.1 = error.filePath then (kv.1, kv.2 ++ [error]) else kv)
    | none => result ++ [(error.filePath, [error])]) []

/-- `Object.keys(errorsPerFile)` in `FixProjectErrorsAgent.execute`: the
files that have at least one error, in first-occurrence order. -/
def errorFiles (errors : List ProjectError) : List String :=
  (groupErrorsByFile errors).map Prod.fst

/- ===== C3 scenario: fix-project-errors.ts scheduling ===== -/

/-- The dependency graph of the three-file scenario: A imports nothing,
B imports A, C imports B. -/
def scenarioGraph : DependencyGraph :=
  ⟨[("/A.ts", []), ("/B.ts", ["/A.ts"]), ("/C.ts", ["/B.ts"])]⟩

/-- The scenario's diagnostics: A is error-free, B has two errors, C has
one. -/
def scenarioErrors : List ProjectError :=
  [{ source := .typescript, filePath := "/B.ts", line := 1, column := 1,
     message := "m1", code := some (.num 2304) },
   { source := .typescript, filePath := "/B.ts", line := 2, column := 1,
     message := "m2", code := some (.num 2304) },
   { source := .typescript, filePath := "/C.ts", line := 1, column := 1,
     message := "m3", code := some (.num 2304) }]

/-- The sequence of files handed out by successive `shift` calls (the
schedule order observed by the orchestrator's workers), up to the given
fuel. -/
def drainQueue : Nat → FileQueue → List String
  | 0, _ => []
  | fuel + 1, q =>
    match q.shift with
    | .error _ => []
    | .ok (f, q') => f :: drainQueue fuel q'

/-- C3 counterexample: in the three-file scenario the orchestrator
enqueues only the files that have errors (`Object.keys` of the per-file
error map), so the schedule is not A, B, C. -/
theorem schedule_scenario_not_A_first :
    drainQueue 3 (mkFileQueue scenarioGraph (errorFiles scenarioErrors)) ≠
      ["/A.ts", "/B.ts", "/C.ts"] := by
  decide

/-- C3 (amended): the schedule contains exactly the files with errors —
B (two errors, whose one dependency A is outside the queue, count 0)
first, then C (whose dependency B is still queued, count 1); the
error-free file A is never scheduled. -/
theorem schedule_scenario_only_error_files :
    errorFiles scenarioErrors = ["/B.ts", "/C.ts"] ∧
    drainQueue 3 (mkFileQueue scenarioGraph (errorFiles scenarioErrors)) =
      ["/B.ts", "/C.ts"] ∧
    "/A.ts" ∉
      drainQueue 3 (mkFileQueue scenarioGraph (errorFiles scenarioErrors)) := by
  refine ⟨by decide, by decide, by decide⟩

/- ===== C8 / C9: aggregator filtering and conversion safety ===== -/

/-- Membership in a successful `convertAll` comes from converting some
input diagnostic. -/
theorem convertAll_mem (l : List TsDiagnostic) (out : List ProjectError)
    (h : convertAll l = .ok out) :
    ∀ e ∈ out, ∃ d ∈ l, convertTsDiagnostic d = .ok e := by
  induction l generalizing out with
  | nil =>
    cases h
    intro e he
    cases he
  | cons d ds ih =>
    intro e he
    unfold convertAll at h
    cases hc : convertTsDiagnostic d with
    | error msg => rw [hc] at h; cases h
    | ok e0 =>
      rw [hc] at h
      cases hrest : convertAll ds with
      | error msg => rw [hrest] at h; cases h
      | ok es =>
        rw [hrest] at h
        cases h
        rcases List.mem_cons.mp he with he | he
        · exact ⟨d, List.mem_cons_self d ds, he ▸ hc⟩
        · obtain ⟨d', hd', hc'⟩ := ih es hrest e he
          exact ⟨d', List.mem_cons_of_mem d hd', hc'⟩

/-- Converted ESLint findings carry the `eslint` origin tag. -/
theorem convertESLintError_source (e : ESLintError) :
    (convertESLintError e).source = ErrorSource.eslint := rfl

/-- Decomposition of a successful `getErrors` into its type-checker part
and (outside phase 1 / JavaScript) its linter part. -/
theorem getErrors_ok_decomp (project : Project) (rawTs : List TsDiagnostic)
    (rawLint : List LintResult) (out : List ProjectError)
    (h : getErrors project rawTs rawLint = .ok out) :
    ∃ tsOut, convertAll (getTsErrors rawTs) = .ok tsOut ∧
      ((project.phase = 1 ∨ project.language = "javascript") → out = tsOut) ∧
      (¬ (project.phase = 1 ∨ project.language = "javascript") →
        out = tsOut ++
          (getESLintErrorsForFile rawLint).map convertESLintError) := by
  unfold getErrors at h
  cases hc : convertAll (getTsErrors rawTs) with
  | error e => rw [hc] at h; cases h
  | ok tsOut =>
    rw [hc] at h
    simp only [] at h
    refine ⟨tsOut, rfl, ?_, ?_⟩
    · intro hp
      rw [if_pos hp] at h
      exact (Except.ok.inj h).symm
    · intro hp
      rw [if_neg hp] at h
      exact (Except.ok.inj h).symm

/-- A lint warning surfaced by `getErrors`: the external linter reports a
severity-1 (warning) message and the aggregator returns it anyway. -/
def lintMsgC8 : LintMessage :=
  { column := 5, line := 3, message := "Unexpected any.",
    ruleId := some "no-explicit-any", severity := 1 }

def lintResC8 : LintResult := { filePath := "/f.ts", messages := [lintMsgC8] }

def projC8 : Project :=
  { path := "/proj", phase := 2, language := "typescript",
    tsconfigPath := "/proj/tsconfig.json" }

/-- C8 counterexample: on the linter path `getErrors` applies no severity
filter, so a severity-1 (non-error) finding reaches the returned list. -/
theorem getErrors_surfaces_warning_severity :
    lintMsgC8.severity ≠ 2 ∧
    getErrors projC8 [] [lintResC8] =
      .ok [convertESLintError (toESLintError lintResC8 lintMsgC8)] := by
  exact ⟨by decide, rfl⟩

/-- C8 (amended): every type-checker diagnostic surfaced by `getErrors`
originates from an error-category raw diagnostic not flagged
`reportsUnnecessary`; linter findings, by contrast, are surfaced with no
severity or redundancy filter — every message of every lint result is
included whenever the linter runs. -/
theorem getErrors_filter_spec (project : Project) (rawTs : List TsDiagnostic)
    (rawLint : List LintResult) (out : List ProjectError)
    (h : getErrors project rawTs rawLint = .ok out) :
    (∀ e ∈ out, e.source = .typescript →
      ∃ d ∈ rawTs, d.category = DiagnosticCategory.error ∧
        d.reportsUnnecessary = false ∧ convertTsDiagnostic d = .ok e) ∧
    (¬ (project.phase = 1 ∨ project.language = "javascript") →
      ∀ r ∈ rawLint, ∀ m ∈ r.messages,
        convertESLintError (toESLintError r m) ∈ out) := by
  obtain ⟨tsOut, hconv, hjs, hts⟩ := getErrors_ok_decomp project rawTs rawLint out h
  constructor
  · intro e he hsrc
    have hets : e ∈ tsOut := by
      by_cases hp : project.phase = 1 ∨ project.language = "javascript"
      · rw [hjs hp] at he
        exact he
      · rw [hts hp] at he
        rcases List.mem_append.mp he with he | he
        · exact he
        · obtain ⟨x, _, hx⟩ := List.mem_map.mp he
          rw [← hx, convertESLintError_source] at hsrc
          cases hsrc
    obtain ⟨d, hd, hcd⟩ := convertAll_mem (getTsErrors rawTs) tsOut hconv e hets
    have hd' := List.mem_filter.mp hd
    obtain ⟨hmem, hpred⟩ := hd'
    have hpred' := hpred
    simp only [Bool.and_eq_true, beq_iff_eq, Bool.not_eq_true'] at hpred'
    exact ⟨d, hmem, hpred'.1, hpred'.2, hcd⟩
  · intro hp r hr m hm
    rw [hts hp]
    refine List.mem_append_right _ ?_
    refine List.mem_map.mpr ⟨toESLintError r m, ?_, rfl⟩
    exact List.mem_flatMap.mpr ⟨r, hr, List.mem_map.mpr ⟨m, hm, rfl⟩⟩

/-- C8 witness: the amended statement applied to the concrete run that
surfaces the severity-1 lint finding. -/
theorem getErrors_filter_spec_witness :
    convertESLintError (toESLintError lintResC8 lintMsgC8) ∈
      [convertESLintError (toESLintError lintResC8 lintMsgC8)] :=
  (getErrors_filter_spec projC8 [] [lintResC8]
      [convertESLintError (toESLintError lintResC8 lintMsgC8)] rfl).2
    (by decide) lintResC8 (by decide) lintMsgC8 (by decide)

/-- A diagnostic missing its source file or start position makes the
conversion throw its fixed error message. -/
theorem convertTsDiagnostic_missing (d : TsDiagnostic)
    (h : d.file = none ∨ d.start = none) :
    convertTsDiagnostic d = .error "Diagnostic must have file and start properties" := by
  unfold convertTsDiagnostic
  cases hf : d.file with
  | none => cases hs : d.start <;> rfl
  | some file =>
    cases hs : d.start with
    | none => rfl
    | some start =>
      rcases h with h | h
      · rw [hf] at h; cases h
      · rw [hs] at h; cases h

/-- The conversion only ever throws its fixed error message. -/
theorem convertTsDiagnostic_error_eq (d : TsDiagnostic) (m : String)
    (h : convertTsDiagnostic d = .error m) :
    m = "Diagnostic must have file and start properties" := by
  unfold convertTsDiagnostic at h
  cases hf : d.file with
  | none => rw [hf] at h; cases hs : d.start <;> rw [hs] at h <;> cases h <;> rfl
  | some file =>
    rw [hf] at h
    cases hs : d.start with
    | none => rw [hs] at h; cases h; rfl
    | some start => rw [hs] at h; cases h

/-- If any input diagnostic fails to convert, the JavaScript `map` throws
that fixed error. -/
theorem convertAll_error (l : List TsDiagnostic)
    (h : ∃ d ∈ l, convertTsDiagnostic d =
      .error "Diagnostic must have file and start properties") :
    convertAll l = .error "Diagnostic must have file and start properties" := by
  induction l with
  | nil =>
    obtain ⟨d, hd, _⟩ := h
    cases hd
  | cons d0 ds ih =>
    obtain ⟨d, hd, hderr⟩ := h
    unfold convertAll
    cases hc : convertTsDiagnostic d0 with
    | error m => rw [convertTsDiagnostic_error_eq d0 m hc]
    | ok e0 =>
      have hds : d ∈ ds := by
        rcases List.mem_cons.mp hd with hd | hd
        · rw [hd] at hderr
          rw [hderr] at hc
          cases hc
        · exact hd
      rw [ih ⟨d, hds, hderr⟩]

/-- A successful conversion yields 1-based positions. -/
theorem convertTsDiagnostic_one_based (d : TsDiagnostic) (e : ProjectError)
    (h : convertTsDiagnostic d = .ok e) : 1 ≤ e.line ∧ 1 ≤ e.column := by
  unfold convertTsDiagnostic at h
  cases hf : d.file with
  | none => rw [hf] at h; cases hs : d.start <;> rw [hs] at h <;> cases h
  | some file =>
    rw [hf] at h
    cases hs : d.start with
    | none => rw [hs] at h; cases h
    | some start =>
      rw [hs] at h
      cases h
      constructor <;> exact Nat.succ_le_succ (Nat.zero_le _)

/-- C9: `getErrors` throws (with the conversion's fixed message) whenever
the type checker's filtered diagnostic list contains a diagnostic without
a source file or start position; type-checker diagnostics it does return
have 1-based line and column unconditionally, and when the external
linter honours its 1-based contract the whole returned list does. -/
theorem getErrors_requires_file_and_start (project : Project)
    (rawTs : List TsDiagnostic) (rawLint : List LintResult) :
    ((∃ d ∈ getTsErrors rawTs, d.file = none ∨ d.start = none) →
      getErrors project rawTs rawLint =
        .error "Diagnostic must have file and start properties") ∧
    (∀ out, getErrors project rawTs rawLint = .ok out →
      ∀ e ∈ out, e.source = .typescript → 1 ≤ e.line ∧ 1 ≤ e.column) ∧
    (∀ out, getErrors project rawTs rawLint = .ok out →
      (∀ r ∈ rawLint, ∀ m ∈ r.messages, 1 ≤ m.line ∧ 1 ≤ m.column) →
      ∀ e ∈ out, 1 ≤ e.line ∧ 1 ≤ e.column) := by
  refine ⟨?_, ?_, ?_⟩
  · intro ⟨d, hd, hmiss⟩
    have herr := convertAll_error (getTsErrors rawTs)
      ⟨d, hd, convertTsDiagnostic_missing d hmiss⟩
    unfold getErrors
    rw [herr]
  · intro out h e he hsrc
    obtain ⟨tsOut, hconv, hjs, hts⟩ :=
      getErrors_ok_decomp project rawTs rawLint out h
    have hets : e ∈ tsOut := by
      by_cases hp : project.phase = 1 ∨ project.language = "javascript"
      · rw [hjs hp] at he; exact he
      · rw [hts hp] at he
        rcases List.mem_append.mp he with he | he
        · exact he
        · obtain ⟨x, _, hx⟩ := List.mem_map.mp he
          rw [← hx, convertESLintError_source] at hsrc
          cases hsrc
    obtain ⟨d, _, hcd⟩ := convertAll_mem (getTsErrors rawTs) tsOut hconv e hets
    exact convertTsDiagnostic_one_based d e hcd
  · intro out h hlint e he
    obtain ⟨tsOut, hconv, hjs, hts⟩ :=
      getErrors_ok_decomp project rawTs rawLint out h
    by_cases hp : project.phase = 1 ∨ project.language = "javascript"
    · rw [hjs hp] at he
      obtain ⟨d, _, hcd⟩ := convertAll_mem (getTsErrors rawTs) tsOut hconv e he
      exact convertTsDiagnostic_one_based d e hcd
    · rw [hts hp] at he
      rcases List.mem_append.mp he with he | he
      · obtain ⟨d, _, hcd⟩ := convertAll_mem (getTsErrors rawTs) tsOut hconv e he
        exact convertTsDiagnostic_one_based d e hcd
      · obtain ⟨x, hx, hxe⟩ := List.mem_map.mp he
        obtain ⟨r, hr, hxm⟩ := List.mem_flatMap.mp hx
        obtain ⟨m, hm, hmx⟩ := List.mem_map.mp hxm
        have := hlint r hr m hm
        rw [← hxe, ← hmx]
        exact this

/-- A concrete project-configuration-level diagnostic: error category,
but no attached source file or position. -/
def tsDiagNoFile : TsDiagnostic :=
  { file := none, start := none, category := .error,
    reportsUnnecessary := false, code := 5090,
    messageText := "Option error in tsconfig" }

def projC9 : Project :=
  { path := "/proj", phase := 1, language := "typescript",
    tsconfigPath := "/proj/tsconfig.json" }

/-- C9 witness: a file-less error diagnostic makes `getErrors` throw. -/
theorem getErrors_requires_file_and_start_witness :
    getErrors projC9 [tsDiagNoFile] [] =
      .error "Diagnostic must have file and start properties" :=
  (getErrors_requires_file_and_start projC9 [tsDiagNoFile] []).1
    ⟨tsDiagNoFile, by simp [getTsErrors, filterErrors, tsDiagNoFile],
     Or.inl rfl⟩

/- ===== src/src/utils/error-formatting.ts ===== -/

def MAX_ERRORS_PER_BATCH : Nat := 100

/-- `determineContextSize`: the context window shrinks as the error count
grows. -/
def determineContextSize (errorCount : Nat) : Nat :=
  if errorCount ≥ 50 then 1
  else if errorCount ≥ 10 then 2
  else 3

/-- JavaScript `String.prototype.padStart`. -/
def padStart (s : String) (n : Nat) (c : Char) : String :=
  String.mk (List.replicate (n - s.length) c) ++ s

/-- `formatLine`: marker, right-aligned line number, separator, content.
Line numbers are integers because the window may start before line 1. -/
def formatLine (lineNumber : Int) (content : String) (isErrorLine : Bool) :
    String :=
  (if isErrorLine then ">" else " ") ++ " " ++
    padStart (toString lineNumber) 4 ' ' ++ " | " ++ content

/-- `formatCodeContext`: the ±contextSize window around the error line;
indices outside the file are skipped (`lines[index]` is undefined). -/
def formatCodeContext (fs : String → String) (filePath : String)
    (errorLine : Int) (contextSize : Nat) : String :=
  let lines := (fs filePath).splitOn "\n"
  let startLine := errorLine - (contextSize : Int)
  String.intercalate "\n"
    ((List.range (2 * contextSize + 1)).filterMap (fun k =>
      let index : Int := startLine + (k : Int)
      if index < 0 then none
      else
        match lines[index.toNat]? with
        | some content =>
          some (formatLine (index + 1) content (index == errorLine))
        | none => none))

/-- `ErrorsWithContext` from error-formatting.ts. -/
structure ErrorsWithContext where
  errors : List ProjectError
  codeContext : String
deriving DecidableEq

/-- `groupErrorsByLocation`: group the first `MAX_ERRORS_PER_BATCH`
errors by `file:line0` key (insertion-ordered map); the code context is
computed when a key is first inserted. -/
def groupErrorsByLocation (fs : String → String) (errors : List ProjectError)
    (contextSize : Nat) : List (String × ErrorsWithContext) :=
  (errors.take MAX_ERRORS_PER_BATCH).foldl (fun errorsByLocation error =>
    let line : Int := (error.line : Int) - 1
    let key := error.filePath ++ ":" ++ toString line
    match lookupKey errorsByLocation key with
    | some _ => errorsByLocation.map (fun kv =>
        if kv.1 = key then (kv.1, { kv.2 with errors := kv.2.errors ++ [error] })
        else kv)
    | none => errorsByLocation ++
        [(key, { errors := [error],
                 codeContext :=
                   formatCodeContext fs error.filePath line contextSize })]) []

/-- JavaScript `String.prototype.replace` with a string pattern: replace
the first occurrence only. -/
def replaceOnce (s pat repl : String) : String :=
  match s.splitOn pat with
  | first :: second :: rest =>
    first ++ repl ++ String.intercalate pat (second :: rest)
  | _ => s

/-- `formatErrors` (the private helper of error-formatting.ts): one line
per error with project-relative path and code tag. -/
def formatErrors (project : Project) (errors : List ProjectError) : String :=
  String.intercalate "\n" (errors.map (fun error =>
    replaceOnce error.filePath (project.path ++ "/") "" ++ ":" ++
      toString error.line ++ ":" ++ toString error.column ++ " - " ++
      error.message ++
      (match error.code with
       | none => ""
       | some (.num c) =>
         " (" ++ (match error.source with
                  | .typescript => "TS"
                  | .eslint => "") ++ toString c ++ ")"
       | some (.str c) =>
         " (" ++ (match error.source with
                  | .typescript => "TS"
                  | .eslint => "") ++ c ++ ")")))

/-- `formatErrorGroups`: groups joined by blank lines, each group being
the formatted errors followed by the code context. -/
def formatErrorGroups (project : Project)
    (errorsByLocation : List (String × ErrorsWithContext)) : String :=
  String.intercalate "\n\n" (errorsByLocation.map (fun kv =>
    formatErrors project kv.2.errors ++ "\n" ++ kv.2.codeContext))

/-- `formatErrorsWithContext`: format the grouped errors, prefixing the
total-count header when more than `MAX_ERRORS_PER_BATCH` exist. -/
def formatErrorsWithContext (fs : String → String)
    (errors : List ProjectError) (project : Project) : String :=
  if errors.length > MAX_ERRORS_PER_BATCH then
    "There are " ++ toString errors.length ++
      " errors in total, here are the first " ++
      toString MAX_ERRORS_PER_BATCH ++ ":\n\n" ++
      formatErrorGroups project
        (groupErrorsByLocation fs errors (determineContextSize errors.length))
  else
    formatErrorGroups project
      (groupErrorsByLocation fs errors (determineContextSize errors.length))

/-- C10: with at most 100 diagnostics the report is the formatted groups
of the whole list with no header; with more than 100, the report is the
total-count header followed by the formatted groups of the first 100
only — everything past the first 100 is omitted (the context size is
computed from the total count, here 1 since the total exceeds 50). -/
theorem formatErrorsWithContext_truncation (fs : String → String)
    (project : Project) :
    (∀ errors : List ProjectError, errors.length ≤ 100 →
      formatErrorsWithContext fs errors project =
        formatErrorGroups project
          (groupErrorsByLocation fs errors
            (determineContextSize errors.length))) ∧
    (∀ first100 extra : List ProjectError,
      first100.length = 100 → extra ≠ [] →
      formatErrorsWithContext fs (first100 ++ extra) project =
        "There are " ++ toString (100 + extra.length) ++
          " errors in total, here are the first " ++
          toString MAX_ERRORS_PER_BATCH ++ ":\n\n" ++
          formatErrorGroups project (groupErrorsByLocation fs first100 1)) := by
  constructor
  · intro errors hlen
    have hng : ¬ (errors.length > MAX_ERRORS_PER_BATCH) := by
      simp only [MAX_ERRORS_PER_BATCH]
      omega
    unfold formatErrorsWithContext
    rw [if_neg hng]
  · intro first100 extra h100 hne
    have hpos : 0 < extra.length := List.length_pos.mpr hne
    have hlen : (first100 ++ extra).length = 100 + extra.length := by
      simp [h100]
    have hgt : (first100 ++ extra).length > MAX_ERRORS_PER_BATCH := by
      rw [hlen]
      simp only [MAX_ERRORS_PER_BATCH]
      omega
    have htake : (first100 ++ extra).take MAX_ERRORS_PER_BATCH =
        first100.take MAX_ERRORS_PER_BATCH := by
      have hmb : MAX_ERRORS_PER_BATCH = first100.length := by
        simp [MAX_ERRORS_PER_BATCH, h100]
      rw [hmb, List.take_left, List.take_length]
    have hgrp : ∀ c : Nat, groupErrorsByLocation fs (first100 ++ extra) c =
        groupErrorsByLocation fs first100 c := by
      intro c
      unfold groupErrorsByLocation
      rw [htake]
    have hctx : determineContextSize ((first100 ++ extra).length) = 1 := by
      unfold determineContextSize
      rw [hlen, if_pos (by omega)]
    unfold formatErrorsWithContext
    rw [if_pos hgt, hctx, hgrp, hlen]

def fsC10 : String → String := fun _ => "const a = 1;\nconst b = 2;"

def projC10 : Project :=
  { path := "/proj", phase := 2, language := "typescript",
    tsconfigPath := "/proj/tsconfig.json" }

def errC10 : ProjectError :=
  { source := .typescript, filePath := "/proj/x.ts", line := 1, column := 3,
    message := "Implicit any", code := some (.num 7001) }

/-- C10 witness: 101 diagnostics produce the header and the groups of the
first 100 only. -/
theorem formatErrorsWithContext_truncation_witness :
    formatErrorsWithContext fsC10 (List.replicate 100 errC10 ++ [errC10])
        projC10 =
      "There are " ++ toString (100 + ([errC10] : List ProjectError).length) ++
        " errors in total, here are the first " ++
        toString MAX_ERRORS_PER_BATCH ++ ":\n\n" ++
        formatErrorGroups projC10
          (groupErrorsByLocation fsC10 (List.replicate 100 errC10) 1) :=
  (formatErrorsWithContext_truncation fsC10 projC10).2
    (List.replicate 100 errC10) [errC10] (by simp) (by simp)
